import Mathlib

/-!
Shallow embedding of the teemup-n8n event service (src/app.py) and proofs
about the claims of its specification.

Conventions of the embedding:
* Python strings are Lean `String`s; Python string operations that the code
  uses (`strip`, `lower`, `in`, `rstrip`, `endswith`, slicing) are modelled
  as functions over the underlying character list, matching CPython's
  semantics on the character sets exercised here (ASCII; `Char.toLower`
  and `Char.isWhitespace` cover the ASCII fragment of Python's Unicode
  behaviour).
* machine integers / epoch milliseconds are `Int` with Python floor
  division `//` modelled by `Int.fdiv`.
* fallible operations return `Option` / `Except`; Python `None` is
  `Option.none` (or `PyVal.vNone` for dynamically typed slots).
* `datetime` objects are modelled by `Wall` (naive wall-clock fields) plus
  an optional fixed UTC offset; the proleptic-Gregorian day arithmetic of
  the `datetime` module is modelled by `daysFromCivil` / `civilFromDays`.
-/

/-- Model of a dynamically typed Python value as stored in the YAML
configuration (used for the fields of an `event_config` rule). -/
inductive PyVal where
  | vNone : PyVal
  | vBool : Bool → PyVal
  | vInt : Int → PyVal
  | vStr : String → PyVal
deriving DecidableEq

/-- Python truthiness (`bool(v)`): `None` is falsy, `0` is falsy, the empty
string is falsy, everything else here is truthy. -/
def PyVal.truthy : PyVal → Bool
  | .vNone => false
  | .vBool b => b
  | .vInt n => n != 0
  | .vStr s => s != ""

/-- Python truthiness of an `Optional[str]`: `None` and `""` are falsy. -/
def optStrTruthy : Option String → Bool
  | none => false
  | some s => s != ""

/-- Python `x or None` applied to a dynamically typed value: keep a truthy
value, collapse any falsy value to `None` (src/app.py line 216). -/
def pyOrNone (v : PyVal) : PyVal :=
  if v.truthy then v else .vNone

/-- Whitespace test used by the model of Python `str.strip()` (ASCII
fragment of Python's notion of whitespace). -/
def pySpace (c : Char) : Bool := c.isWhitespace

/-- Model of Python `str.strip()`: drop whitespace from both ends. -/
def pyStrip (s : String) : String :=
  ⟨((s.data.dropWhile pySpace).reverse.dropWhile pySpace).reverse⟩

/-- Model of Python `str.lower()` (ASCII fragment). -/
def pyLower (s : String) : String := ⟨s.data.map Char.toLower⟩

/-- Occurrence of `needle` as a contiguous sublist of `hay` (model of
Python `needle in hay` on strings; the empty needle matches anywhere). -/
def listContainsSub : List Char → List Char → Bool
  | needle, [] => needle.isEmpty
  | needle, c :: t => needle.isPrefixOf (c :: t) || listContainsSub needle t

/-- Model of Python `needle in hay` for strings. -/
def pyInStr (needle hay : String) : Bool := listContainsSub needle.data hay.data

/-- Model of Python `s.rstrip(")")`: remove every trailing `)` character
(src/app.py line 204). -/
def pyRstripParen (s : String) : String :=
  ⟨(s.data.reverse.dropWhile (fun c => c = ')')).reverse⟩

/-- Gregorian leap-year test, as in the `datetime` module. -/
def isLeapYear (y : Int) : Bool :=
  (y % 4 == 0 && y % 100 != 0) || y % 400 == 0

/-- Length of a month in the proleptic Gregorian calendar. -/
def daysInMonth (y : Int) (m : Nat) : Nat :=
  if m = 2 then (if isLeapYear y then 29 else 28)
  else if m = 4 ∨ m = 6 ∨ m = 9 ∨ m = 11 then 30
  else 31

/-- Days since 1970-01-01 of a proleptic-Gregorian civil date (models the
ordinal arithmetic inside the `datetime` module). -/
def daysFromCivil (y0 : Int) (m d : Nat) : Int :=
  let y : Int := if m ≤ 2 then y0 - 1 else y0
  let era : Int := Int.fdiv y 400
  let yoe : Nat := (y - era * 400).toNat
  let doy : Nat := (153 * (if 2 < m then m - 3 else m + 9) + 2) / 5 + d - 1
  let doe : Nat := yoe * 365 + yoe / 4 - yoe / 100 + doy
  era * 146097 + (doe : Int) - 719468

/-- Civil date (year, month, day) of a count of days since 1970-01-01
(inverse direction of `daysFromCivil`). -/
def civilFromDays (z0 : Int) : Int × Nat × Nat :=
  let z : Int := z0 + 719468
  let era : Int := Int.fdiv z 146097
  let doe : Nat := (z - era * 146097).toNat
  let yoe : Nat := (doe - doe / 1460 + doe / 36524 - doe / 146096) / 365
  let y : Int := (yoe : Int) + era * 400
  let doy : Nat := doe - (365 * yoe + yoe / 4 - yoe / 100)
  let mp : Nat := (5 * doy + 2) / 153
  let d : Nat := doy - (153 * mp + 2) / 5 + 1
  let m : Nat := if mp < 10 then mp + 3 else mp - 9
  (if m ≤ 2 then y + 1 else y, m, d)

/-- Naive wall-clock fields of a Python `datetime`. -/
structure Wall where
  year : Int
  month : Nat
  day : Nat
  hour : Nat
  minute : Nat
  second : Nat
  microsecond : Nat
deriving DecidableEq

/-- Model of a Python `datetime` value: wall-clock fields plus an optional
fixed UTC offset in seconds (`None` models a naive datetime). -/
structure PyDateTime where
  wall : Wall
  utcOffset : Option Int
deriving DecidableEq

/-- Numeric value of an ASCII digit character. -/
def digitVal (c : Char) : Nat := c.toNat - 48

/-- Read exactly `n` ASCII digits, accumulating their value. -/
def readDigitsAux : Nat → Nat → List Char → Option (Nat × List Char)
  | 0, acc, cs => some (acc, cs)
  | _ + 1, _, [] => none
  | n + 1, acc, c :: cs =>
    if c.isDigit then readDigitsAux n (acc * 10 + digitVal c) cs else none

/-- Read exactly `n` ASCII digits from the front of `cs`. -/
def readDigits (n : Nat) (cs : List Char) : Option (Nat × List Char) :=
  readDigitsAux n 0 cs

/-- Parse the `YYYY-MM-DD` date part of an ISO-8601 string, with the range
validation `datetime.fromisoformat` performs (month 1–12, day within the
month, year at least 1). -/
def parseDateCore (cs : List Char) : Option (Int × Nat × Nat × List Char) :=
  match readDigits 4 cs with
  | none => none
  | some (y, cs1) =>
    match cs1 with
    | '-' :: cs2 =>
      match readDigits 2 cs2 with
      | none => none
      | some (m, cs3) =>
        match cs3 with
        | '-' :: cs4 =>
          match readDigits 2 cs4 with
          | none => none
          | some (d, cs5) =>
            if 1 ≤ y ∧ 1 ≤ m ∧ m ≤ 12 ∧ 1 ≤ d ∧ d ≤ daysInMonth (y : Int) m
            then some ((y : Int), m, d, cs5) else none
        | _ => none
    | _ => none

/-- Parse a fractional-second part: one or more digits, of which the first
six become microseconds and the rest are truncated away. -/
def readFrac (cs : List Char) : Option (Nat × List Char) :=
  match cs with
  | [] => none
  | c :: _ =>
    if c.isDigit then
      let ds := cs.takeWhile Char.isDigit
      let six := ds.take 6
      let v := six.foldl (fun a c => a * 10 + digitVal c) 0
      some (v * 10 ^ (6 - six.length), cs.dropWhile Char.isDigit)
    else none

/-- Parse `HH[:MM[:SS[.ffffff]]]` (hour, minute, second, microsecond);
missing components default to zero, as in `datetime.fromisoformat`. -/
def parseHMS (cs : List Char) : Option (Nat × Nat × Nat × Nat × List Char) :=
  match readDigits 2 cs with
  | none => none
  | some (h, cs1) =>
    match cs1 with
    | ':' :: cs2 =>
      match readDigits 2 cs2 with
      | none => none
      | some (mi, cs3) =>
        match cs3 with
        | ':' :: cs4 =>
          match readDigits 2 cs4 with
          | none => none
          | some (s, cs5) =>
            match cs5 with
            | '.' :: cs6 => (readFrac cs6).map (fun p => (h, mi, s, p.1, p.2))
            | ',' :: cs6 => (readFrac cs6).map (fun p => (h, mi, s, p.1, p.2))
            | _ => some (h, mi, s, 0, cs5)
        | _ => some (h, mi, 0, 0, cs3)
    | _ => some (h, 0, 0, 0, cs1)

/-- Parse the magnitude of a UTC offset (`HH[:MM[:SS]]`, components
range-checked), in seconds. -/
def parseOffMag (cs : List Char) : Option (Int × List Char) :=
  match parseHMS cs with
  | none => none
  | some (h, mi, s, _usec, rest) =>
    if h ≤ 23 ∧ mi ≤ 59 ∧ s ≤ 59
    then some (((h * 3600 + mi * 60 + s : Nat) : Int), rest) else none

/-- Parse an optional trailing UTC offset: nothing, `Z`/`z`, or a signed
`HH[:MM[:SS]]` offset. -/
def parseOffset (cs : List Char) : Option (Option Int × List Char) :=
  match cs with
  | [] => some (none, [])
  | 'Z' :: rest => some (some 0, rest)
  | 'z' :: rest => some (some 0, rest)
  | '+' :: rest => (parseOffMag rest).map (fun p => (some p.1, p.2))
  | '-' :: rest => (parseOffMag rest).map (fun p => (some (-p.1), p.2))
  | _ => none

/-- Model of `datetime.fromisoformat` on the extended ISO-8601 format the
service receives: `YYYY-MM-DD`, optionally followed by a single separator
character, a time `HH[:MM[:SS[.ffffff]]]` and an optional UTC offset.
Returns `none` where CPython raises `ValueError`. -/
def fromisoformat (str : String) : Option PyDateTime :=
  match parseDateCore str.data with
  | none => none
  | some (y, m, d, rest) =>
    match rest with
    | [] => some ⟨⟨y, m, d, 0, 0, 0, 0⟩, none⟩
    | _sep :: trest =>
      match parseHMS trest with
      | none => none
      | some (h, mi, s, usec, rest2) =>
        if h ≤ 23 ∧ mi ≤ 59 ∧ s ≤ 59 then
          match parseOffset rest2 with
          | none => none
          | some (off, rest3) =>
            if rest3 = [] then some ⟨⟨y, m, d, h, mi, s, usec⟩, off⟩ else none
        else none

example : fromisoformat "2025-06-01T09:00:00+00:00" =
    some ⟨⟨2025, 6, 1, 9, 0, 0, 0⟩, some 0⟩ := by decide

example : fromisoformat "not-a-date" = none := by decide

example : fromisoformat "2025-06-01" = some ⟨⟨2025, 6, 1, 0, 0, 0, 0⟩, none⟩ := by decide

example : fromisoformat "2025-13-01" = none := by decide

/-- Codepoint-lexicographic comparison of character lists (Python string
`<=`, as used by `list.sort(key=...)`). -/
def listLeb : List Char → List Char → Bool
  | [], _ => true
  | _ :: _, [] => false
  | a :: as, b :: bs => if a < b then true else if b < a then false else listLeb as bs

/-- Python string comparison `a <= b` (codepoint lexicographic). -/
def strLeb (a b : String) : Bool := listLeb a.data b.data

/-- Rewrite of a trailing literal `Z` into the UTC offset `+00:00`
(src/app.py lines 71–72: `s = s[:-1] + "+00:00"`). -/
def fixTrailingZ (s : String) : String :=
  if s.data.getLast? = some 'Z' then ⟨s.data.dropLast ++ ("+00:00").data⟩ else s

/-- Dynamically typed `starts_at` slot of a raw event: `None`, a native
`datetime`, a string, or a value of any other type. -/
inductive StartVal where
  | vNone : StartVal
  | vDT : PyDateTime → StartVal
  | vStr : String → StartVal
  | vOther : StartVal
deriving DecidableEq

/-- Embedding of `_ensure_datetime` (src/app.py lines 64–77): `None` stays
`None`; a native `datetime` is returned as-is; a string is stripped, a
trailing `Z` is rewritten to `+00:00`, and the result parsed as ISO-8601
(`ValueError` becomes `none`); any other type yields `None`. -/
def ensureDatetime : StartVal → Option PyDateTime
  | .vNone => none
  | .vDT d => some d
  | .vStr v => fromisoformat (fixTrailingZ (pyStrip v))
  | .vOther => none

/-- Model of a `ZoneInfo` time zone: the UTC offset (seconds) it assigns to
a naive local wall-clock time, and the offset in force at an absolute
instant (seconds since the epoch). -/
structure Tz where
  offsetAtWall : Wall → Int
  offsetAtEpoch : Int → Int

/-- Fixed UTC time zone (offset zero everywhere). -/
def utcTz : Tz := ⟨fun _ => 0, fun _ => 0⟩

/-- Epoch seconds of a naive wall-clock time read as UTC. -/
def wallEpochSec (w : Wall) : Int :=
  daysFromCivil w.year w.month w.day * 86400 +
    ((w.hour * 3600 + w.minute * 60 + w.second : Nat) : Int)

/-- Wall-clock fields of an epoch-second instant (already shifted into the
target zone), carrying the microsecond through. -/
def epochToWall (es : Int) (usec : Nat) : Wall :=
  let days := Int.fdiv es 86400
  let sod := (es - days * 86400).toNat
  let c := civilFromDays days
  ⟨c.1, c.2.1, c.2.2, sod / 3600, sod % 3600 / 60, sod % 60, usec⟩

/-- An aware local datetime as the pipeline uses it: its wall-clock fields
(for formatting) and its UTC epoch milliseconds (for the baseline filter),
the two observations src/app.py makes of `starts_local`. -/
structure ZonedDT where
  wall : Wall
  epochMs : Int
deriving DecidableEq

/-- Embedding of src/app.py lines 188–193: a naive parsed datetime gets the
target zone attached to its unchanged wall-clock fields
(`starts_at.replace(tzinfo=zone)`), while an offset-aware one is converted
into the target zone (`starts_at.astimezone(zone)`), preserving its
instant. `epochMs` models `int(starts_local.astimezone(utc).timestamp() *
1000)` (sub-millisecond float effects are not modelled; the service's
inputs carry whole seconds). -/
def localize (zone : Tz) (dt : PyDateTime) : ZonedDT :=
  match dt.utcOffset with
  | none =>
    ⟨dt.wall,
      (wallEpochSec dt.wall - zone.offsetAtWall dt.wall) * 1000 +
        ((dt.wall.microsecond / 1000 : Nat) : Int)⟩
  | some off =>
    let es := wallEpochSec dt.wall - off
    ⟨epochToWall (es + zone.offsetAtEpoch es) dt.wall.microsecond,
      es * 1000 + ((dt.wall.microsecond / 1000 : Nat) : Int)⟩

/-- Two-digit zero-padded decimal rendering (strftime `%d`, `%m`, `%H`,
`%M`, `%S`, `%I`). -/
def pad2 (n : Nat) : String := if n < 10 then "0" ++ toString n else toString n

/-- Four-digit zero-padded year rendering (strftime `%Y` on years 1–9999). -/
def pad4 (y : Int) : String :=
  let n := y.toNat
  (if n < 10 then "000" else if n < 100 then "00" else if n < 1000 then "0" else "")
    ++ toString n

/-- Full month name (strftime `%B`). -/
def monthName : Nat → String
  | 1 => "January"
  | 2 => "February"
  | 3 => "March"
  | 4 => "April"
  | 5 => "May"
  | 6 => "June"
  | 7 => "July"
  | 8 => "August"
  | 9 => "September"
  | 10 => "October"
  | 11 => "November"
  | 12 => "December"
  | _ => ""

/-- Full weekday name of a wall-clock date (strftime `%A`); day 0 of the
epoch (1970-01-01) is a Thursday. -/
def weekdayName (w : Wall) : String :=
  match ((daysFromCivil w.year w.month w.day + 4) % 7).toNat with
  | 0 => "Sunday"
  | 1 => "Monday"
  | 2 => "Tuesday"
  | 3 => "Wednesday"
  | 4 => "Thursday"
  | 5 => "Friday"
  | _ => "Saturday"

/-- Hour on the 12-hour clock (strftime `%I`). -/
def hour12 (h : Nat) : Nat := if h % 12 = 0 then 12 else h % 12

/-- Morning/afternoon marker (strftime `%p`). -/
def ampm (h : Nat) : String := if h < 12 then "AM" else "PM"

/-- Embedding of `_format_time_disp` (src/app.py lines 80–81):
`"%A, %B %d, %Y at %I:%M %p"`. -/
def fmtTimeDisp (w : Wall) : String :=
  weekdayName w ++ ", " ++ monthName w.month ++ " " ++ pad2 w.day ++ ", " ++
    pad4 w.year ++ " at " ++ pad2 (hour12 w.hour) ++ ":" ++ pad2 w.minute ++
    " " ++ ampm w.hour

/-- Embedding of `_format_time_local_hm` (src/app.py lines 84–85):
`"%I:%M %p"`. -/
def fmtTimeLocalHM (w : Wall) : String :=
  pad2 (hour12 w.hour) ++ ":" ++ pad2 w.minute ++ " " ++ ampm w.hour

/-- Embedding of `_format_time_iso_wall` (src/app.py lines 88–89):
`"%Y-%m-%dT%H:%M:%S"`. -/
def fmtIsoWall (w : Wall) : String :=
  pad4 w.year ++ "-" ++ pad2 w.month ++ "-" ++ pad2 w.day ++ "T" ++
    pad2 w.hour ++ ":" ++ pad2 w.minute ++ ":" ++ pad2 w.second

/-- An override rule from the `event_config` mapping: the two fields the
code reads, each a dynamically typed YAML value (`PyVal.vNone` models both
an absent key and an explicit `null`, which `dict.get` makes
indistinguishable). -/
structure Rule where
  thread_id : PyVal
  reminder : PyVal
deriving DecidableEq

/-- Rule with no thread and no reminder (the `{}` fallback). -/
def emptyRule : Rule := ⟨.vNone, .vNone⟩

/-- Loop of `_pick_event_cfg` (src/app.py lines 55–60): scan the
configuration pairs in order, skip the `"default"` key, and return the rule
of the first key whose lowercase form occurs in the lowercased title,
stopping there; fall back to `chosen` when no key matches. -/
def pickLoop (titleLc : String) : List (String × Rule) → Rule → Rule
  | [], chosen => chosen
  | (k, r) :: rest, chosen =>
    if k = "default" then pickLoop titleLc rest chosen
    else if pyInStr (pyLower k) titleLc then r
    else pickLoop titleLc rest chosen

/-- Embedding of `_pick_event_cfg` (src/app.py lines 52–61). The ordered
association list models the insertion-ordered Python dict (keys unique).
`cfg.get("default", {}) or {}` is modelled by `getD emptyRule`: a missing,
`null` or empty default all behave as the empty rule. -/
def pickEventCfg (title : String) (cfg : List (String × Rule)) : Rule :=
  pickLoop (pyLower title) cfg ((List.lookup "default" cfg).getD emptyRule)

/-- Maximal run of non-whitespace characters (regex `\S+`, greedy). -/
def urlBody (cs : List Char) : List Char := cs.takeWhile (fun c => !c.isWhitespace)

/-- Match of the regex `https?://\S+` anchored at the start of `cs`:
the scheme literal (`https://` preferred, as the optional `s` is greedy)
followed by at least one non-whitespace character. -/
def reMatchAt (cs : List Char) : Option (List Char) :=
  if ("https://").data.isPrefixOf cs then
    (fun body => if body.isEmpty then none else some (("https://").data ++ body))
      (urlBody (cs.drop 8))
  else if ("http://").data.isPrefixOf cs then
    (fun body => if body.isEmpty then none else some (("http://").data ++ body))
      (urlBody (cs.drop 7))
  else none

/-- Leftmost match of `https?://\S+` (model of `re.search` at src/app.py
line 202): try each start position from the left. -/
def reSearchUrl : List Char → Option (List Char)
  | [] => none
  | c :: rest =>
    match reMatchAt (c :: rest) with
    | some m => some m
    | none => reSearchUrl rest

/-- Embedding of the link resolution (src/app.py lines 199–204): use the
stripped declared URL if non-empty, otherwise search the stripped
description for the first `https?://\S+` match and remove every trailing
`)` from it (`m.group(0).rstrip(")")`); with no match the link stays
empty. -/
def resolveLink (url desc : Option String) : String :=
  (fun link =>
    if link = "" then
      match reSearchUrl (pyStrip (desc.getD "")).data with
      | some m => pyRstripParen ⟨m⟩
      | none => ""
    else link)
  (pyStrip (url.getD ""))

/-- Loosely typed raw event record as produced by the external parser
(every field possibly absent; `title`, `url`, `description` are strings or
`None` in the feeds this service consumes). -/
structure RawEvent where
  title : Option String
  starts_at : StartVal
  url : Option String
  description : Option String

/-- Output record assembled at src/app.py lines 208–218. -/
structure Item where
  main : String
  url : String
  timeDisp : String
  timeLocalHM : String
  timeISO : String
  isAllDay : Bool
  daysDiff : Int
  thread_id : PyVal
  reminder : Bool
deriving DecidableEq

/-- Per-event body of the loop at src/app.py lines 179–218: strip the
title and drop the event if it is empty; parse `starts_at` and drop the
event on failure; localize into the target zone; drop the event if it
starts before the baseline; otherwise compute `daysDiff` by floor
division, resolve the link, match the override rule, and assemble the
output record (with `thread_id` coerced by `or None` and `reminder` by
`bool(...)`). -/
def processEvent (zone : Tz) (baselineMs : Int) (eventCfg : List (String × Rule))
    (ev : RawEvent) : Option Item :=
  (fun title =>
    if title = "" then none
    else
      match ensureDatetime ev.starts_at with
      | none => none
      | some dtv =>
        (fun startsLocal =>
          if startsLocal.epochMs < baselineMs then none
          else
            some ⟨title,
                  resolveLink ev.url ev.description,
                  fmtTimeDisp startsLocal.wall,
                  fmtTimeLocalHM startsLocal.wall,
                  fmtIsoWall startsLocal.wall,
                  false,
                  Int.fdiv (startsLocal.epochMs - baselineMs) (24 * 60 * 60 * 1000),
                  pyOrNone (pickEventCfg title eventCfg).thread_id,
                  (pickEventCfg title eventCfg).reminder.truthy⟩)
          (localize zone dtv))
  (pyStrip (ev.title.getD ""))

/-- Sort key relation of `items.sort(key=lambda e: e["timeISO"])`
(src/app.py line 220). -/
def itemLe (a b : Item) : Prop := strLeb a.timeISO b.timeISO = true

instance : DecidableRel itemLe := fun a b => instDecidableEqBool (strLeb a.timeISO b.timeISO) true

/-- Embedding of the pipeline core of the `events` handler (src/app.py
lines 176–221): map the per-event body over the raw events in order,
keeping the survivors, then sort ascending by `timeISO`. Python's
`list.sort` is a stable ascending sort, whose output is the unique
stably-sorted permutation; it is modelled by the stable
`List.insertionSort`. -/
def eventsPipeline (zone : Tz) (baselineMs : Int) (eventCfg : List (String × Rule))
    (raws : List RawEvent) : List Item :=
  List.insertionSort itemLe (raws.filterMap (processEvent zone baselineMs eventCfg))

/-- Client-error outcomes of `_determine_meetup_url` (the two
`HTTPException(400)`s at src/app.py lines 128 and 138). -/
inductive UrlErr where
  | unknownGroup : String → UrlErr
  | missingSource : UrlErr
deriving DecidableEq

/-- First configured value of the groups mapping
(`next(iter(meetup_groups.values()))`, src/app.py line 136). -/
def headVal : List (String × Option String) → Option String
  | [] => none
  | (_, v) :: _ => v

/-- Embedding of `_determine_meetup_url` (src/app.py lines 119–138): a
truthy explicit URL wins; else a truthy group name is looked up in the
(insertion-ordered) groups mapping, where an absent key or a falsy value
(`None` or `""`) raises `Unknown group`; else a single configured group is
used implicitly; else `Provide ?group=... or ?url=...` is raised. Group
mapping values are `Option String` (`none` models a YAML `null`). -/
def determineMeetupUrl (groups : List (String × Option String))
    (group url : Option String) : Except UrlErr (Option String) :=
  if optStrTruthy url then .ok url
  else if optStrTruthy group then
    (fun mu =>
      if optStrTruthy mu then .ok mu
      else .error (.unknownGroup (group.getD "")))
      ((List.lookup (group.getD "") groups).getD none)
  else if groups.length = 1 then .ok (headVal groups)
  else .error .missingSource

/-- Size-cap failure of the fetcher (`HTTPException(413)`,
src/app.py line 109). -/
inductive FetchErr where
  | tooLarge : FetchErr
deriving DecidableEq

/-- Embedding of the read/cap logic of `_fetch_html` (src/app.py lines
106–110): read at most `maxBytes + 1` bytes of the response `content`
(`f.read(max_bytes + 1)`), fail with 413 when more than `maxBytes`
arrived, return the data otherwise. The transport itself (socket errors,
timeouts) is outside the model; `content` is the byte stream the server
would deliver. -/
def fetchHtml (content : List Nat) (maxBytes : Nat) : Except FetchErr (List Nat) :=
  (fun data => if maxBytes < data.length then .error .tooLarge else .ok data)
    (content.take (maxBytes + 1))

example : resolveLink none (some "Join us (https://x.test/e/1))") = "https://x.test/e/1" := by decide

example : pickEventCfg "zz bar and foo" [("Foo", ⟨.vStr "t1", .vBool true⟩), ("Bar", ⟨.vStr "t2", .vBool false⟩)] = ⟨.vStr "t1", .vBool true⟩ := by decide

/-- Fixed-offset zone two hours east of UTC, for concrete runs. -/
def tzPlus2 : Tz := ⟨fun _ => 7200, fun _ => 7200⟩

/-- Concrete raw event for concrete runs: padded title, `Z`-suffixed start,
no declared URL, description carrying a parenthesised link. -/
def evZ : RawEvent :=
  ⟨some " Mainz Meetup ", .vStr "2025-06-01T09:00:00Z", none,
   some "Join us (https://x.test/e/1))"⟩

/-- Concrete `event_config` for concrete runs: one override rule whose
`thread_id` is the empty string and whose `reminder` is the truthy `1`. -/
def cfgMeetup : List (String × Rule) := [("meetup", ⟨.vStr "", .vInt 1⟩)]

/-- Output record the pipeline produces from `evZ` under `tzPlus2` with
baseline 0 and `cfgMeetup`. -/
def itemMainz : Item :=
  ⟨"Mainz Meetup", "https://x.test/e/1", "Sunday, June 01, 2025 at 11:00 AM",
   "11:00 AM", "2025-06-01T11:00:00", false, 20240, .vNone, true⟩

/-- Concrete well-formed raw event near the epoch, for concrete runs. -/
def evDemo : RawEvent := ⟨some "Demo", .vStr "1970-01-05T10:00:00", none, none⟩

/-- Output record the pipeline produces from `evDemo` under `utcTz` with
baseline 0 and an empty configuration. -/
def itemDemo : Item :=
  ⟨"Demo", "", "Monday, January 05, 1970 at 10:00 AM", "10:00 AM",
   "1970-01-05T10:00:00", false, 4, .vNone, false⟩

/-- Specification-level Rule Matcher, written from the spec's words
(§4.3): scan the configured pairs in order and return the rule of the
first non-default key whose lowercase form occurs as a substring of the
lowercased title; `none` when no override key matches. Used to compare
the code-level `pickEventCfg` against the specified algorithm. -/
def firstOverrideMatch (title : String) : List (String × Rule) → Option Rule
  | [] => none
  | (k, r) :: rest =>
    if k ≠ "default" ∧ pyInStr (pyLower k) (pyLower title) = true then some r
    else firstOverrideMatch title rest

theorem head?_dropWhile_not (p : Char → Bool) :
    ∀ (l : List Char) (c : Char), (l.dropWhile p).head? = some c → p c = false := by
  intro l
  induction l with
  | nil => intro c h; simp [List.dropWhile] at h
  | cons x xs ih =>
    intro c h
    rw [List.dropWhile_cons] at h
    by_cases hx : p x = true
    · exact ih c (by simpa [hx] using h)
    · simp only [hx, if_false] at h
      simp only [List.head?] at h
      cases h
      simpa using hx

theorem rstrip_all_parens (l : List Char) :
    l = (l.reverse.dropWhile (fun c => c = ')')).reverse ++
        List.replicate (l.reverse.takeWhile (fun c => c = ')')).length ')' := by
  conv_lhs => rw [← l.reverse_reverse,
    ← List.takeWhile_append_dropWhile (fun c => decide (c = ')')) l.reverse,
    List.reverse_append]
  congr 1
  rw [List.eq_replicate_iff]
  refine ⟨by simp, ?_⟩
  intro b hb
  rw [List.mem_reverse] at hb
  have := List.mem_takeWhile_imp hb
  simpa using this

theorem pyRstripParen_spec (s : String) :
    (∃ k, s.data = (pyRstripParen s).data ++ List.replicate k ')') ∧
    (pyRstripParen s).data.getLast? ≠ some ')' := by
  constructor
  · exact ⟨_, rstrip_all_parens s.data⟩
  · have h1 : (pyRstripParen s).data
        = (s.data.reverse.dropWhile (fun c => decide (c = ')'))).reverse := rfl
    rw [h1, List.getLast?_reverse]
    intro h
    have := head?_dropWhile_not (fun c => decide (c = ')')) s.data.reverse ')' h
    simp at this

theorem processEvent_none_title (zone : Tz) (b : Int) (cfg : List (String × Rule))
    (ev : RawEvent) (h : pyStrip (ev.title.getD "") = "") :
    processEvent zone b cfg ev = none := by
  simp [processEvent, h]

theorem processEvent_none_start (zone : Tz) (b : Int) (cfg : List (String × Rule))
    (ev : RawEvent) (h : ensureDatetime ev.starts_at = none) :
    processEvent zone b cfg ev = none := by
  simp only [processEvent, h]
  split <;> rfl

theorem processEvent_none_baseline (zone : Tz) (b : Int) (cfg : List (String × Rule))
    (ev : RawEvent) (dtv : PyDateTime) (h : ensureDatetime ev.starts_at = some dtv)
    (hb : (localize zone dtv).epochMs < b) :
    processEvent zone b cfg ev = none := by
  simp only [processEvent, h, if_pos hb]
  split <;> rfl

theorem processEvent_some_inv (zone : Tz) (b : Int) (cfg : List (String × Rule))
    (ev : RawEvent) (item : Item) (h : processEvent zone b cfg ev = some item) :
    ∃ dtv, ensureDatetime ev.starts_at = some dtv ∧
      pyStrip (ev.title.getD "") ≠ "" ∧
      ¬ (localize zone dtv).epochMs < b ∧
      item = ⟨pyStrip (ev.title.getD ""),
              resolveLink ev.url ev.description,
              fmtTimeDisp (localize zone dtv).wall,
              fmtTimeLocalHM (localize zone dtv).wall,
              fmtIsoWall (localize zone dtv).wall,
              false,
              Int.fdiv ((localize zone dtv).epochMs - b) (24 * 60 * 60 * 1000),
              pyOrNone (pickEventCfg (pyStrip (ev.title.getD "")) cfg).thread_id,
              (pickEventCfg (pyStrip (ev.title.getD "")) cfg).reminder.truthy⟩ := by
  by_cases ht : pyStrip (ev.title.getD "") = ""
  · rw [processEvent_none_title zone b cfg ev ht] at h; exact Option.noConfusion h
  cases hd : ensureDatetime ev.starts_at with
  | none =>
    rw [processEvent_none_start zone b cfg ev hd] at h
    exact Option.noConfusion h
  | some dtv =>
    by_cases hb : (localize zone dtv).epochMs < b
    · rw [processEvent_none_baseline zone b cfg ev dtv hd hb] at h
      exact Option.noConfusion h
    · refine ⟨dtv, rfl, ht, hb, ?_⟩
      simp only [processEvent, hd, if_neg ht, if_neg hb] at h
      exact (Option.some_inj.mp h).symm

theorem mem_eventsPipeline (zone : Tz) (b : Int) (cfg : List (String × Rule))
    (raws : List RawEvent) (item : Item) :
    item ∈ eventsPipeline zone b cfg raws ↔
      ∃ ev ∈ raws, processEvent zone b cfg ev = some item := by
  unfold eventsPipeline
  rw [(List.perm_insertionSort itemLe _).mem_iff, List.mem_filterMap]

/-- C8: for every fetch with a `maxBytes` cap the fetcher never returns
more than `maxBytes` bytes: when the response content exceeds `maxBytes`
the fetch aborts with the distinct too-large error instead of buffering
unbounded data, and otherwise the fetched bytes are returned. -/
theorem fetch_respects_max_bytes (content : List Nat) (maxBytes : Nat) :
    (∀ d, fetchHtml content maxBytes = Except.ok d → d.length ≤ maxBytes ∧ d = content) ∧
    (maxBytes < content.length → fetchHtml content maxBytes = Except.error FetchErr.tooLarge) ∧
    (content.length ≤ maxBytes → fetchHtml content maxBytes = Except.ok content) := by
  have hlen : (content.take (maxBytes + 1)).length = min (maxBytes + 1) content.length := by
    simp
  refine ⟨?_, ?_, ?_⟩
  · intro d hd
    simp only [fetchHtml] at hd
    by_cases hc : maxBytes < (content.take (maxBytes + 1)).length
    · rw [if_pos hc] at hd
      exact Except.noConfusion hd
    · rw [if_neg hc] at hd
      rw [hlen] at hc
      have h2 : content.take (maxBytes + 1) = content :=
        List.take_of_length_le (by omega)
      rw [h2] at hd
      cases hd
      exact ⟨by omega, rfl⟩
  · intro h
    simp only [fetchHtml]
    rw [if_pos (by rw [hlen]; omega)]
  · intro h
    simp only [fetchHtml]
    have h2 : content.take (maxBytes + 1) = content :=
      List.take_of_length_le (by omega)
    rw [h2, if_neg (by omega)]

theorem fetch_respects_max_bytes_witness :
    fetchHtml [0, 1, 2] 2 = Except.error FetchErr.tooLarge ∧
    fetchHtml [0, 1] 2 = Except.ok [0, 1] :=
  ⟨(fetch_respects_max_bytes [0, 1, 2] 2).2.1 (by decide),
   (fetch_respects_max_bytes [0, 1] 2).2.2 (by decide)⟩

/-- C7: source selection follows three tiers — an explicit (truthy) URL is
used outright; otherwise a given group name is looked up in the groups
mapping by case-sensitive exact key, failing with the unknown-group error
if absent; otherwise, with exactly one configured group, that group's URL
is used implicitly; otherwise the request fails with the missing-source
error. -/
theorem source_selection_three_tiers (groups : List (String × Option String))
    (g u v : String) (gOpt uOpt : Option String) :
    (u ≠ "" → determineMeetupUrl groups gOpt (some u) = Except.ok (some u)) ∧
    (optStrTruthy uOpt = false → g ≠ "" →
      (List.lookup g groups = none →
        determineMeetupUrl groups (some g) uOpt = Except.error (UrlErr.unknownGroup g)) ∧
      (List.lookup g groups = some (some v) → v ≠ "" →
        determineMeetupUrl groups (some g) uOpt = Except.ok (some v))) ∧
    (optStrTruthy uOpt = false → optStrTruthy gOpt = false →
      (groups.length = 1 → determineMeetupUrl groups gOpt uOpt = Except.ok (headVal groups)) ∧
      (groups.length ≠ 1 →
        determineMeetupUrl groups gOpt uOpt = Except.error UrlErr.missingSource)) := by
  have falsyCases : ∀ o : Option String, optStrTruthy o = false → o = none ∨ o = some "" := by
    intro o ho
    cases o with
    | none => exact Or.inl rfl
    | some s =>
      have hs : s = "" := by simpa [optStrTruthy] using ho
      exact Or.inr (by rw [hs])
  refine ⟨?_, ?_, ?_⟩
  · intro hu
    simp [determineMeetupUrl, optStrTruthy, hu]
  · intro hu hg
    constructor
    · intro hl
      rcases falsyCases uOpt hu with h | h <;> subst h <;>
        simp [determineMeetupUrl, optStrTruthy, hg, hl]
    · intro hl hv
      rcases falsyCases uOpt hu with h | h <;> subst h <;>
        simp [determineMeetupUrl, optStrTruthy, hg, hl, hv]
  · intro hu hg
    constructor
    · intro hlen
      rcases falsyCases uOpt hu with h | h <;> subst h <;>
        rcases falsyCases gOpt hg with h2 | h2 <;> subst h2 <;>
        simp [determineMeetupUrl, optStrTruthy, hlen]
    · intro hlen
      rcases falsyCases uOpt hu with h | h <;> subst h <;>
        rcases falsyCases gOpt hg with h2 | h2 <;> subst h2 <;>
        simp [determineMeetupUrl, optStrTruthy, hlen]

theorem source_selection_three_tiers_witness :
    determineMeetupUrl [("a", some "urlA"), ("b", some "urlB")] none (some "http://x")
      = Except.ok (some "http://x") ∧
    determineMeetupUrl [("a", some "urlA"), ("b", some "urlB")] (some "zzz") none
      = Except.error (UrlErr.unknownGroup "zzz") ∧
    determineMeetupUrl [("a", some "urlA"), ("b", some "urlB")] (some "b") none
      = Except.ok (some "urlB") ∧
    determineMeetupUrl [("solo", some "urlS")] none none = Except.ok (some "urlS") ∧
    determineMeetupUrl [("a", some "urlA"), ("b", some "urlB")] none none
      = Except.error UrlErr.missingSource :=
  ⟨(source_selection_three_tiers [("a", some "urlA"), ("b", some "urlB")] "" "http://x" "" none none).1
      (by decide),
   ((source_selection_three_tiers [("a", some "urlA"), ("b", some "urlB")] "zzz" "" "" none none).2.1
      (by decide) (by decide)).1 (by decide),
   ((source_selection_three_tiers [("a", some "urlA"), ("b", some "urlB")] "b" "" "urlB" none none).2.1
      (by decide) (by decide)).2 (by decide) (by decide),
   ((source_selection_three_tiers [("solo", some "urlS")] "" "" "" none none).2.2
      (by decide) (by decide)).1 (by decide),
   ((source_selection_three_tiers [("a", some "urlA"), ("b", some "urlB")] "" "" "" none none).2.2
      (by decide) (by decide)).2 (by decide)⟩

/-- C10: an explicit URL that is the empty string is treated as not
provided (selection behaves exactly as with no URL), and a group whose
configured mapping value is empty or null fails with the unknown-group
error even though the key exists. -/
theorem source_selection_falsy_edges (groups : List (String × Option String))
    (gOpt : Option String) (g : String) :
    determineMeetupUrl groups gOpt (some "") = determineMeetupUrl groups gOpt none ∧
    (g ≠ "" → List.lookup g groups = some none ∨ List.lookup g groups = some (some "") →
      determineMeetupUrl groups (some g) none = Except.error (UrlErr.unknownGroup g)) := by
  constructor
  · simp [determineMeetupUrl, optStrTruthy]
  · intro hg hl
    rcases hl with hl | hl <;> simp [determineMeetupUrl, optStrTruthy, hg, hl]

theorem source_selection_falsy_edges_witness :
    determineMeetupUrl [("a", none), ("b", some "")] (some "a") none
      = Except.error (UrlErr.unknownGroup "a") ∧
    determineMeetupUrl [("solo", some "urlS")] none (some "") = Except.ok (some "urlS") := by
  constructor
  · exact (source_selection_falsy_edges [("a", none), ("b", some "")] none "a").2
      (by decide) (Or.inl (by decide))
  · rw [(source_selection_falsy_edges [("solo", some "urlS")] none "x").1]
    rfl

/-- C2 counterexample: with no declared URL, the description
`"Join us (https://x.test/e/1))"` does NOT yield `"https://x.test/e/1)"`
as the claim states; the code's `rstrip(")")` removes every trailing
parenthesis, yielding `"https://x.test/e/1"`. -/
theorem link_resolver_single_strip_cex :
    resolveLink none (some "Join us (https://x.test/e/1))") ≠ "https://x.test/e/1)" ∧
    resolveLink none (some "Join us (https://x.test/e/1))") = "https://x.test/e/1" := by
  decide

/-- C2 (amended): for every event whose declared URL is absent or empty
after trimming, the Link Resolver scans the description for the first
substring matching http(s):// followed by one or more non-whitespace
characters, strips ALL trailing `)` characters from the match (so the
result never ends in `)`), and returns the result; the example description
yields `"https://x.test/e/1"`. -/
theorem link_resolver_rstrip_all (url desc : Option String) :
    (pyStrip (url.getD "") = "" →
      (∀ m, reSearchUrl (pyStrip (desc.getD "")).data = some m →
        resolveLink url desc = pyRstripParen ⟨m⟩ ∧
        (∃ k, m = (resolveLink url desc).data ++ List.replicate k ')') ∧
        (resolveLink url desc).data.getLast? ≠ some ')') ∧
      (reSearchUrl (pyStrip (desc.getD "")).data = none → resolveLink url desc = "")) ∧
    resolveLink none (some "Join us (https://x.test/e/1))") = "https://x.test/e/1" := by
  constructor
  · intro hu
    constructor
    · intro m hm
      have hres : resolveLink url desc = pyRstripParen ⟨m⟩ := by
        simp [resolveLink, hu, hm]
      refine ⟨hres, ?_, ?_⟩
      · obtain ⟨k, hk⟩ := (pyRstripParen_spec ⟨m⟩).1
        refine ⟨k, ?_⟩
        rw [hres]
        exact hk
      · rw [hres]
        exact (pyRstripParen_spec ⟨m⟩).2
    · intro hm
      simp [resolveLink, hu, hm]
  · decide

theorem link_resolver_rstrip_all_witness :
    resolveLink none (some "see https://a.b/c))) now") = "https://a.b/c" ∧
    (resolveLink none (some "see https://a.b/c))) now")).data.getLast? ≠ some ')' ∧
    resolveLink none (some "no links here") = "" := by
  refine ⟨?_, ?_, ?_⟩
  · have h := ((link_resolver_rstrip_all none (some "see https://a.b/c))) now")).1
      (by decide)).1 "https://a.b/c)))".data (by decide)
    rw [h.1]
    decide
  · exact ((link_resolver_rstrip_all none (some "see https://a.b/c))) now")).1
      (by decide)).1 "https://a.b/c)))".data (by decide) |>.2.2
  · exact ((link_resolver_rstrip_all none (some "no links here")).1 (by decide)).2 (by decide)

theorem pickLoop_eq_firstOverride (title : String) (cfg : List (String × Rule)) :
    ∀ chosen : Rule,
      pickLoop (pyLower title) cfg chosen = (firstOverrideMatch title cfg).getD chosen := by
  induction cfg with
  | nil => intro chosen; rfl
  | cons p rest ih =>
    intro chosen
    obtain ⟨k, r⟩ := p
    by_cases hk : k = "default"
    · simp [pickLoop, firstOverrideMatch, hk, ih]
    · by_cases hm : pyInStr (pyLower k) (pyLower title) = true
      · simp [pickLoop, firstOverrideMatch, hk, hm]
      · simp [pickLoop, firstOverrideMatch, hk, hm, ih]

/-- C1: the Rule Matcher starts from the rule at key `"default"` (or the
empty rule when the key is absent), scans the remaining keys in defined
order, and the first key whose lowercase form occurs as a substring of the
lowercased title replaces the chosen rule and stops the search (stated as
equality with the specification-level first-match scan); with keys
`["Foo", "Bar"]` and a title containing both `"foo"` and `"bar"` the rule
for `"Foo"` is chosen; and with zero configured keys every surviving
event emits `reminder: false` and `thread_id: null`. -/
theorem rule_matcher_first_match (title : String) (cfg : List (String × Rule)) :
    pickEventCfg title cfg =
      (firstOverrideMatch title cfg).getD ((List.lookup "default" cfg).getD emptyRule) ∧
    (∀ r1 r2 : Rule, pickEventCfg "zz bar and foo" [("Foo", r1), ("Bar", r2)] = r1) ∧
    (∀ (zone : Tz) (b : Int) (raws : List RawEvent) (item : Item),
      item ∈ eventsPipeline zone b [] raws →
        item.reminder = false ∧ item.thread_id = PyVal.vNone) := by
  refine ⟨pickLoop_eq_firstOverride title cfg _, ?_, ?_⟩
  · intro r1 r2
    rfl
  · intro zone b raws item hmem
    rw [mem_eventsPipeline] at hmem
    obtain ⟨ev, _, hev⟩ := hmem
    obtain ⟨dtv, _, _, _, hitem⟩ := processEvent_some_inv zone b [] ev item hev
    subst hitem
    exact ⟨rfl, rfl⟩

theorem rule_matcher_first_match_witness :
    itemDemo.reminder = false ∧ itemDemo.thread_id = PyVal.vNone :=
  (rule_matcher_first_match "Demo" []).2.2 utcTz 0 [evDemo] itemDemo (by decide)

/-- C9: the emitted `thread_id` is null whenever the chosen rule's
`thread_id` is absent/null or the empty string (an empty-string
`thread_id` is coerced to null and never emitted as `""`), and the
emitted `reminder` is the boolean truthiness of the chosen rule's
`reminder` value. -/
theorem thread_id_reminder_emission (r : Rule) (zone : Tz) (b : Int)
    (cfg : List (String × Rule)) (ev : RawEvent) :
    ((r.thread_id = PyVal.vNone ∨ r.thread_id = PyVal.vStr "") →
      pyOrNone r.thread_id = PyVal.vNone) ∧
    pyOrNone r.thread_id ≠ PyVal.vStr "" ∧
    (∀ item, processEvent zone b cfg ev = some item →
      item.thread_id = pyOrNone (pickEventCfg (pyStrip (ev.title.getD "")) cfg).thread_id ∧
      item.reminder = (pickEventCfg (pyStrip (ev.title.getD "")) cfg).reminder.truthy ∧
      item.thread_id ≠ PyVal.vStr "") := by
  have hne : ∀ v : PyVal, pyOrNone v ≠ PyVal.vStr "" := by
    intro v hv
    by_cases ht : v.truthy = true
    · rw [pyOrNone, if_pos ht] at hv
      subst hv
      simp [PyVal.truthy] at ht
    · rw [pyOrNone, if_neg ht] at hv
      exact PyVal.noConfusion hv
  refine ⟨?_, hne r.thread_id, ?_⟩
  · intro h
    rcases h with h | h <;> rw [h] <;> rfl
  · intro item h
    obtain ⟨dtv, _, _, _, hitem⟩ := processEvent_some_inv zone b cfg ev item h
    subst hitem
    exact ⟨rfl, rfl, hne _⟩

theorem thread_id_reminder_emission_witness :
    itemMainz.thread_id
        = pyOrNone (pickEventCfg (pyStrip (evZ.title.getD "")) cfgMeetup).thread_id ∧
    itemMainz.reminder
        = (pickEventCfg (pyStrip (evZ.title.getD "")) cfgMeetup).reminder.truthy ∧
    itemMainz.thread_id ≠ PyVal.vStr "" :=
  (thread_id_reminder_emission ⟨PyVal.vNone, PyVal.vNone⟩ tzPlus2 0 cfgMeetup evZ).2.2
    itemMainz (by decide)

/-- C3: an event whose epoch milliseconds are below the baseline is absent
from the output; a surviving event carries `daysDiff` equal to the exact
floor of (startsAtUtcMillis − baselineMillis) / 86400000, so `daysDiff`
is never negative in any output record. -/
theorem baseline_filter_and_daysDiff (zone : Tz) (b : Int)
    (cfg : List (String × Rule)) (ev : RawEvent) :
    (∀ dtv, ensureDatetime ev.starts_at = some dtv →
      (localize zone dtv).epochMs < b → processEvent zone b cfg ev = none) ∧
    (∀ item, processEvent zone b cfg ev = some item →
      ∃ dtv, ensureDatetime ev.starts_at = some dtv ∧
        b ≤ (localize zone dtv).epochMs ∧
        item.daysDiff = Int.fdiv ((localize zone dtv).epochMs - b) 86400000 ∧
        0 ≤ item.daysDiff) ∧
    (∀ (raws : List RawEvent) (item : Item),
      item ∈ eventsPipeline zone b cfg raws → 0 ≤ item.daysDiff) := by
  refine ⟨?_, ?_, ?_⟩
  · intro dtv hd hb
    exact processEvent_none_baseline zone b cfg ev dtv hd hb
  · intro item h
    obtain ⟨dtv, hd, _, hb, hitem⟩ := processEvent_some_inv zone b cfg ev item h
    subst hitem
    refine ⟨dtv, hd, by omega, by norm_num, ?_⟩
    exact Int.fdiv_nonneg (by omega) (by norm_num)
  · intro raws item hmem
    rw [mem_eventsPipeline] at hmem
    obtain ⟨ev2, _, h2⟩ := hmem
    obtain ⟨dtv, _, _, hb, hitem⟩ := processEvent_some_inv zone b cfg ev2 item h2
    subst hitem
    exact Int.fdiv_nonneg (by omega) (by norm_num)

theorem baseline_filter_and_daysDiff_witness :
    processEvent utcTz 86400000 [] ⟨some "Early", StartVal.vStr "1970-01-01T12:00:00", none, none⟩
      = none ∧
    (0 : Int) ≤ itemDemo.daysDiff :=
  ⟨(baseline_filter_and_daysDiff utcTz 86400000 []
      ⟨some "Early", StartVal.vStr "1970-01-01T12:00:00", none, none⟩).1
      ⟨⟨1970, 1, 1, 12, 0, 0, 0⟩, none⟩ (by decide) (by decide),
   (baseline_filter_and_daysDiff utcTz 0 [] evDemo).2.2 [evDemo] itemDemo (by decide)⟩

/-- C6: an event whose title is empty or whitespace-only after trimming,
or whose `starts_at` is absent or an unparsable string, is silently
omitted from the output — no error — and the remaining events of the
batch are still processed and returned. -/
theorem malformed_event_silently_skipped (zone : Tz) (b : Int)
    (cfg : List (String × Rule)) (pre post : List RawEvent) (ev : RawEvent) :
    (pyStrip (ev.title.getD "") = "" ∨ ev.starts_at = StartVal.vNone ∨
      (∃ s, ev.starts_at = StartVal.vStr s ∧
        fromisoformat (fixTrailingZ (pyStrip s)) = none)) →
    eventsPipeline zone b cfg (pre ++ ev :: post) = eventsPipeline zone b cfg (pre ++ post) := by
  intro h
  have hnone : processEvent zone b cfg ev = none := by
    rcases h with h | h | ⟨s, hs, hp⟩
    · exact processEvent_none_title zone b cfg ev h
    · exact processEvent_none_start zone b cfg ev (by rw [h]; rfl)
    · exact processEvent_none_start zone b cfg ev (by rw [hs]; exact hp)
  unfold eventsPipeline
  rw [List.filterMap_append, List.filterMap_append, List.filterMap_cons, hnone]

theorem malformed_event_silently_skipped_witness :
    eventsPipeline utcTz 0 [] ([evDemo] ++ ⟨some "Bad", StartVal.vStr "not-a-date", none, none⟩ :: []) =
      eventsPipeline utcTz 0 [] ([evDemo] ++ []) ∧
    eventsPipeline utcTz 0 [] ([evDemo] ++ []) = [itemDemo] :=
  ⟨malformed_event_silently_skipped utcTz 0 [] [evDemo] []
      ⟨some "Bad", StartVal.vStr "not-a-date", none, none⟩
      (Or.inr (Or.inr ⟨"not-a-date", rfl, by decide⟩)),
   by decide⟩

theorem listLeb_total : ∀ a b : List Char, listLeb a b = true ∨ listLeb b a = true := by
  intro a
  induction a with
  | nil => intro b; left; rfl
  | cons x xs ih =>
    intro b
    cases b with
    | nil => right; rfl
    | cons y ys =>
      by_cases hxy : x < y
      · left; simp [listLeb, hxy]
      · by_cases hyx : y < x
        · right; simp [listLeb, hyx]
        · rcases ih ys with h | h
          · left; simp [listLeb, hxy, hyx, h]
          · right; simp [listLeb, hxy, hyx, h]

theorem listLeb_trans :
    ∀ a b c : List Char, listLeb a b = true → listLeb b c = true → listLeb a c = true := by
  intro a
  induction a with
  | nil => intro b c _ _; rfl
  | cons x xs ih =>
    intro b c hab hbc
    cases b with
    | nil => simp [listLeb] at hab
    | cons y ys =>
      cases c with
      | nil => simp [listLeb] at hbc
      | cons z zs =>
        simp only [listLeb] at hab hbc ⊢
        by_cases hxy : x < y
        · by_cases hyz : y < z
          · have hxz : x < z := lt_trans hxy hyz
            simp [hxz]
          · by_cases hzy : z < y
            · rw [if_neg hyz, if_pos hzy] at hbc
              exact absurd hbc (by simp)
            · have hyzeq : y = z := le_antisymm (not_lt.mp hzy) (not_lt.mp hyz)
              subst hyzeq
              simp [hxy]
        · by_cases hyx : y < x
          · rw [if_neg hxy, if_pos hyx] at hab
            exact absurd hab (by simp)
          · have hxyeq : x = y := le_antisymm (not_lt.mp hyx) (not_lt.mp hxy)
            subst hxyeq
            rw [if_neg hxy, if_neg hyx] at hab
            by_cases hxz : x < z
            · simp [hxz]
            · by_cases hzx : z < x
              · rw [if_neg hxz, if_pos hzx] at hbc
                exact absurd hbc (by simp)
              · rw [if_neg hxz, if_neg hzx] at hbc
                rw [if_neg hxz, if_neg hzx]
                exact ih ys zs hab hbc

/-- C5: the output list of the pipeline is sorted non-decreasing by the
`timeISO` wall-clock string under the codepoint-lexicographic order, it is
a permutation of the assembled records (a sort, not a filter), and the
sort is stable: any `timeISO`-ordered sublist of the assembled records is
still a sublist of the output. -/
theorem output_sorted_by_timeISO (zone : Tz) (b : Int)
    (cfg : List (String × Rule)) (raws : List RawEvent) :
    List.Pairwise itemLe (eventsPipeline zone b cfg raws) ∧
    (eventsPipeline zone b cfg raws).Perm (raws.filterMap (processEvent zone b cfg)) ∧
    (∀ c : List Item, c.Pairwise itemLe →
      c.Sublist (raws.filterMap (processEvent zone b cfg)) →
      c.Sublist (eventsPipeline zone b cfg raws)) := by
  haveI : IsTotal Item itemLe :=
    ⟨fun a b => listLeb_total a.timeISO.data b.timeISO.data⟩
  haveI : IsTrans Item itemLe :=
    ⟨fun a b c => listLeb_trans a.timeISO.data b.timeISO.data c.timeISO.data⟩
  refine ⟨List.sorted_insertionSort itemLe _, List.perm_insertionSort itemLe _, ?_⟩
  intro c hc hsub
  exact List.sublist_insertionSort hc hsub

theorem output_sorted_by_timeISO_witness :
    [itemDemo].Sublist (eventsPipeline utcTz 0 [] [evDemo]) :=
  (output_sorted_by_timeISO utcTz 0 [] [evDemo]).2.2 [itemDemo]
    (List.pairwise_singleton itemLe itemDemo) (by decide)

/-- C4: the Normalizer accepts a native timestamp value as-is; accepts a
string by trimming it, rewriting a trailing literal `Z` to the UTC offset
`+00:00`, and parsing it as an ISO-8601-like timestamp; rejects any other
shape or parse failure; and a parsed timestamp with no offset gets the
target zone attached to its unchanged wall-clock fields (treated as
already local), while one carrying an offset is converted into the target
zone preserving its instant. -/
theorem normalizer_start_time (zone : Tz) (d : PyDateTime) (s : String) (off : Int) :
    ensureDatetime (StartVal.vDT d) = some d ∧
    ensureDatetime StartVal.vNone = none ∧
    ensureDatetime StartVal.vOther = none ∧
    ensureDatetime (StartVal.vStr s) = fromisoformat (fixTrailingZ (pyStrip s)) ∧
    ((pyStrip s).data.getLast? = some 'Z' →
      ensureDatetime (StartVal.vStr s)
        = fromisoformat ⟨(pyStrip s).data.dropLast ++ ("+00:00").data⟩) ∧
    ((pyStrip s).data.getLast? ≠ some 'Z' →
      ensureDatetime (StartVal.vStr s) = fromisoformat (pyStrip s)) ∧
    (d.utcOffset = none →
      (localize zone d).wall = d.wall ∧
      (localize zone d).epochMs =
        (wallEpochSec d.wall - zone.offsetAtWall d.wall) * 1000
          + ((d.wall.microsecond / 1000 : Nat) : Int)) ∧
    (d.utcOffset = some off →
      (localize zone d).epochMs =
        (wallEpochSec d.wall - off) * 1000 + ((d.wall.microsecond / 1000 : Nat) : Int) ∧
      (localize zone d).wall =
        epochToWall (wallEpochSec d.wall - off + zone.offsetAtEpoch (wallEpochSec d.wall - off))
          d.wall.microsecond) := by
  refine ⟨rfl, rfl, rfl, rfl, ?_, ?_, ?_, ?_⟩
  · intro h
    simp [ensureDatetime, fixTrailingZ, h]
  · intro h
    simp [ensureDatetime, fixTrailingZ, h]
  · intro h
    exact ⟨by simp [localize, h], by simp [localize, h]⟩
  · intro h
    exact ⟨by simp [localize, h], by simp [localize, h]⟩

theorem normalizer_start_time_witness :
    ensureDatetime (StartVal.vStr "  2025-06-01T09:00:00Z ")
      = fromisoformat ⟨(pyStrip "  2025-06-01T09:00:00Z ").data.dropLast ++ ("+00:00").data⟩ ∧
    (localize tzPlus2 ⟨⟨2025, 6, 1, 9, 0, 0, 0⟩, some 0⟩).epochMs
      = (wallEpochSec ⟨2025, 6, 1, 9, 0, 0, 0⟩ - 0) * 1000 + ((0 / 1000 : Nat) : Int) ∧
    (localize utcTz ⟨⟨2026, 3, 4, 18, 30, 0, 0⟩, none⟩).wall = ⟨2026, 3, 4, 18, 30, 0, 0⟩ :=
  ⟨(normalizer_start_time utcTz ⟨⟨1970, 1, 1, 0, 0, 0, 0⟩, none⟩ "  2025-06-01T09:00:00Z " 0).2.2.2.2.1
      (by decide),
   ((normalizer_start_time tzPlus2 ⟨⟨2025, 6, 1, 9, 0, 0, 0⟩, some 0⟩ "" 0).2.2.2.2.2.2.2
      rfl).1,
   ((normalizer_start_time utcTz ⟨⟨2026, 3, 4, 18, 30, 0, 0⟩, none⟩ "" 0).2.2.2.2.2.2.1
      rfl).1⟩
